import Mathlib

set_option maxRecDepth 4000

/-!
Verification development for the path-resolution-and-mutation engine of the
drive repository (src/src/move.go: the Move/Rename stack and the Copy stack).

The Go code is shallowly embedded: the remote store (g.rem) is modelled as a
structure of pure response functions, Go nil-able pointers become Option, Go
error values become a structured error type per function (one constructor per
fmt.Errorf site), and every store mutation primitive that a function invokes
is recorded in an explicit call trace, together with the log lines it emits.
Store queries (FindByPath, FindByIdMulti, findChildren) are reads of the
environment and are not traced; only the mutating primitives named by the
code (insertParent, removeParent, rename, copy) are.  The goroutine fan-out
with its channel barrier in copy_ is serialized in source order; no claim
below depends on interleaving.
-/

/-- Go error values, as far as the code inspects them: the distinguished
ErrPathNotExists sentinel versus everything else (transport failures and
formatted messages). -/
inductive GoError where
  | pathNotExists
  | other (msg : String)
deriving DecidableEq

/-- A remote object (the fields of drive's File that move.go reads):
identity, leaf name, directory flag and copyable flag. -/
structure File where
  id : String
  name : String
  isDir : Bool
  copyable : Bool
deriving DecidableEq

/-- A mutating store primitive invocation, as recorded in the call trace. -/
inductive StoreCall where
  | insertParent (fileId parentId : String)
  | removeParent (fileId parentId : String)
  | rename (id newName : String)
  | copy (newName parentId : String) (src : File)
deriving DecidableEq

/-- The remote store collaborator (g.rem), modelled as pure response
functions.  Pointer results (`*File`) are Option File; a Go
(slice, error) pair is a Lean pair with Option GoError (none = nil error).
mkdirAll models remoteMkdirAll / the makeDirectoryRecursive contract of the
spec: on success it yields the final directory. -/
structure Rem where
  findByPath : String → List (Option File) × Option GoError
  findByIdMulti : String → List (Option File) × Option GoError
  insertParent : String → String → Option GoError
  removeParent : String → String → Option GoError
  rename : String → String → Option File × Option GoError
  copy : String → String → File → Option File × Option GoError
  findChildren : String → Bool → List File
  mkdirAll : String → Except GoError File

/-- Errors produced by the move stack, one constructor per fmt.Errorf site
of move.go (srcResolve and destResolve are the wrapping sites in
Commands.move; store carries a propagated raw store error). -/
inductive MoveError where
  | srcResolve (src : String) (e : GoError)
  | destResolve (dest : String) (e : GoError)
  | destNotDir (dest : String)
  | srcNotFound (src : String)
  | store (e : GoError)
  | sameParent (srcParentId destParentId : String)
  | moveToSelf (dupId srcId : String)
  | duplicateConflict (path forceKey : String)
  | cannotMoveToItself (src : String)
  | nonExistantParent (parentPath : String)
deriving DecidableEq

/-- Errors returned by the top-level Move verb itself. -/
inductive CmdError where
  | usage (msg : String)
  | nested (src dest : String)
deriving DecidableEq

/-- Errors produced by the copy stack, one constructor per error site of
copy.go (notDir is the ErrPathNotDir wrapping site; fuelExhausted marks the
recursion-depth cutoff of the embedding, unreachable for stores of depth
below the supplied fuel). -/
inductive CopyError where
  | nonExistantSrc
  | nonCopyable (name : String)
  | notDir (dest : String)
  | store (e : GoError)
  | fuelExhausted
deriving DecidableEq

/-- Outcome of rename_ / Rename: either the Go error return value, or a nil
pointer dereference (Go would panic), naming the dereferenced variable. -/
inductive RenameOut where
  | nilDeref (what : String)
  | ret (e : Option GoError)
deriving DecidableEq

/-- One emitted log / print line, one constructor per logging site. -/
inductive LogEntry where
  | removeParentErr (fileId relPath : String) (e : GoError)
  | srcNotExist (src : String)
  | renameConflict (path : String)
  | renameCallErr (id newName : String) (e : GoError)
  | renameFailed (src : String) (e : GoError)
  | printMoveErr (src : String) (e : MoveError)
  | copyResolveErr (srcPath : String) (e : GoError)
  | copyTaskErr (srcPath : String) (es : List CopyError)
  | copyChildErr (chName : String) (es : List CopyError)
  | copyUnderscoreErr (destId : String) (e : CopyError)
  | processing
deriving DecidableEq

/-- Result of running an embedded function: its value, the trace of store
mutations it issued, and the log lines it emitted, in order. -/
structure Res (α : Type) where
  val : α
  calls : List StoreCall
  logs : List LogEntry
deriving DecidableEq

/-- The shared CLI options read by move.go: the positional arguments, the
force-override flag, and the root path. -/
structure Options where
  sources : List String
  force : Bool
  path : String

/-- The command context: options plus the remote store collaborator. -/
structure Commands where
  opts : Options
  rem : Rem

/-- Splits a character list into slash-separated segments (accumulator holds
the current segment reversed). -/
def segsAux (cur : List Char) : List Char → List String
  | [] => [String.mk cur.reverse]
  | c :: cs =>
    if c = '/' then String.mk cur.reverse :: segsAux [] cs
    else segsAux (c :: cur) cs

/-- Path segmentation on the slash separator. -/
def pathSegs (p : String) : List String := segsAux [] p.data

/-- Joins segments back with the slash separator. -/
def joinSegs : List String → String
  | [] => ""
  | [s] => s
  | s :: rest => s ++ "/" ++ joinSegs rest

/-- Longest common segment run of two segment lists. -/
def commonSegs : List String → List String → List String
  | a :: as, b :: bs => if a = b then a :: commonSegs as bs else []
  | _, _ => []

/-- Modelled from the spec: commonPrefix is not under src; section 4.2
describes it as the longest common path prefix of the two paths, computed
segment-wise.  (Name adjusted from the repository's commonPrefix.) -/
def commonPrefixOf (a b : String) : String :=
  joinSegs (commonSegs (pathSegs a) (pathSegs b))

/-- Models Go path/filepath.Join for the slash paths used here: joins the
two parts with a separator, an empty first part yielding the second. -/
def filepathJoin (dir name : String) : String :=
  if dir = "" then name else dir ++ "/" ++ name

/-- Modelled from the spec: sepJoin is not under src; it joins path
components with the separator (used as destPath/childName, section 4.5). -/
def sepJoin (sep a b : String) : String := a ++ sep ++ b

/-- Modelled from the spec: urlToPath is not under src and the spec states
no escaping rule, so it is modelled as the identity on names. -/
def urlToPath (s : String) (_ : Bool) : String := s

/-- Modelled from the spec: ForceKey is the name of the force-override flag
mentioned in the duplicate-conflict message. -/
def ForceKey : String := "force"

/-- The check err != nil && err != ErrPathNotExists: strips the tolerated
path-not-exists sentinel, keeping hard errors. -/
def hardErr : Option GoError → Option GoError
  | none => none
  | some e => if e = GoError.pathNotExists then none else some e

/-- Modelled from the spec: parentPather is not under src; section 4.4
step 4 resolves the current logical parent of a source from its path, i.e.
the path with its last segment dropped. -/
def Commands.parentPather (_ : Commands) (p : String) : String :=
  joinSegs (pathSegs p).dropLast

/-- Modelled from the spec: pathSplitter is not under src; section 4.5
splits a destination path into its parent directory and base name. -/
def Commands.pathSplitter (_ : Commands) (p : String) : String × String :=
  (joinSegs (pathSegs p).dropLast, ((pathSegs p).getLast?).getD "")

/-- Modelled from the spec: remoteMkdirAll is not under src; it is the
makeDirectoryRecursive store contract of section 6. -/
def Commands.remoteMkdirAll (g : Commands) (p : String) : Except GoError File :=
  g.rem.mkdirAll p

/-- The per-pair argument record of move.go (moveOpt).  destFile is typed
*File in Go but Commands.move only invokes move_ after its nil and IsDir
checks, so it is embedded as a plain File. -/
structure moveOpt where
  src : String
  dest : String
  byId : Bool
  srcFile : Option File
  destFile : File

/-- The old-parent scan of move_: the first non-nil old parent whose id
equals the new parent id aborts with the same-parent error. -/
def sameParentScan (newParentId : String) : List (Option File) → Option MoveError
  | [] => none
  | none :: rest => sameParentScan newParentId rest
  | some op :: rest =>
    if op.id = newParentId then some (MoveError.sameParent op.id newParentId)
    else sameParentScan newParentId rest

/-- The not-byId stage of move_: resolve the source's parent path and run
the old-parent scan, tolerating the path-not-exists sentinel. -/
def oldParentCheck (g : Commands) (opt : moveOpt) (newParentId : String) : Option MoveError :=
  if opt.byId then none
  else
    let pr := g.rem.findByPath (g.parentPather opt.src)
    match hardErr pr.2 with
    | some e => some (MoveError.store e)
    | none => sameParentScan newParentId pr.1

/-- The duplicate scan of move_: nil entries are skipped; a duplicate with
the source's own id aborts with the move-to-self error; any other duplicate
aborts with the duplicate-conflict error unless force is set. -/
def dupLoop (srcId : String) (force : Bool) (newFullPath : String) :
    List (Option File) → Option MoveError
  | [] => none
  | none :: rest => dupLoop srcId force newFullPath rest
  | some dup :: rest =>
    if dup.id = srcId then some (MoveError.moveToSelf dup.id srcId)
    else if force = false then some (MoveError.duplicateConflict newFullPath ForceKey)
    else dupLoop srcId force newFullPath rest

/-- The parent loop of Commands.removeParent: a nil parent aborts; for each
real parent the removeParent primitive is issued and a failure is only
logged; the loop itself always ends in success. -/
def removeParentLoop (g : Commands) (fileId relToRootPath parentPath : String) :
    List (Option File) → Res (Option MoveError)
  | [] => ⟨none, [], []⟩
  | none :: _ => ⟨some (MoveError.nonExistantParent parentPath), [], []⟩
  | some parent :: rest =>
    let e := g.rem.removeParent fileId parent.id
    let ls := match e with
      | some ge => [LogEntry.removeParentErr fileId relToRootPath ge]
      | none => []
    let r := removeParentLoop g fileId relToRootPath parentPath rest
    ⟨r.val, StoreCall.removeParent fileId parent.id :: r.calls, ls ++ r.logs⟩

/-- Commands.removeParent: resolve the source's parent path (any resolution
error, including path-not-exists, is returned) and remove each discovered
parent edge. -/
def Commands.removeParent (g : Commands) (fileId relToRootPath : String) :
    Res (Option MoveError) :=
  let parentPath := g.parentPather relToRootPath
  let pr := g.rem.findByPath parentPath
  match pr.2 with
  | some e => ⟨some (MoveError.store e), [], []⟩
  | none => removeParentLoop g fileId relToRootPath parentPath pr.1

/-- move_: the per-pair move engine.  Stages in source order: nil source,
old-parent check (skipped byId), duplicate scan at dest joined with the
source's base name, self-nesting check, insertParent, and (unless byId)
removal of the old parent edges. -/
def move_ (g : Commands) (opt : moveOpt) : Res (Option MoveError) :=
  match opt.srcFile with
  | none => ⟨some (MoveError.srcNotFound opt.src), [], []⟩
  | some remSrc =>
    let newParent := opt.destFile
    match oldParentCheck g opt newParent.id with
    | some e => ⟨some e, [], []⟩
    | none =>
      let newFullPath := filepathJoin opt.dest remSrc.name
      let dc := g.rem.findByPath newFullPath
      match hardErr dc.2 with
      | some e => ⟨some (MoveError.store e), [], []⟩
      | none =>
        match dupLoop remSrc.id g.opts.force newFullPath dc.1 with
        | some e => ⟨some e, [], []⟩
        | none =>
          if remSrc.id = newParent.id then
            ⟨some (MoveError.cannotMoveToItself opt.src), [], []⟩
          else
            match g.rem.insertParent remSrc.id newParent.id with
            | some e =>
              ⟨some (MoveError.store e), [StoreCall.insertParent remSrc.id newParent.id], []⟩
            | none =>
              if opt.byId then ⟨none, [StoreCall.insertParent remSrc.id newParent.id], []⟩
              else
                let r := g.removeParent remSrc.id opt.src
                ⟨r.val, StoreCall.insertParent remSrc.id newParent.id :: r.calls, r.logs⟩

/-- The inner destination loop of Commands.move: a nil or non-directory
destination yields the must-be-a-folder error for that pair, otherwise
move_ runs and a non-nil error is collected. -/
def movePairLoop (g : Commands) (src dest : String) (byId : Bool) (srcF : Option File) :
    List (Option File) → Res (List MoveError)
  | [] => ⟨[], [], []⟩
  | np :: rest =>
    let r : Res (List MoveError) :=
      match np with
      | none => ⟨[MoveError.destNotDir dest], [], []⟩
      | some p =>
        if p.isDir = false then ⟨[MoveError.destNotDir dest], [], []⟩
        else
          let m := move_ g ⟨src, dest, byId, srcF, p⟩
          ⟨m.val.toList, m.calls, m.logs⟩
    let r2 := movePairLoop g src dest byId srcF rest
    ⟨r.val ++ r2.val, r.calls ++ r2.calls, r.logs ++ r2.logs⟩

/-- The outer source loop of Commands.move over the resolved sources. -/
def moveSourcesLoop (g : Commands) (src dest : String) (byId : Bool)
    (newParents : List (Option File)) : List (Option File) → Res (List MoveError)
  | [] => ⟨[], [], []⟩
  | s :: rest =>
    let r := movePairLoop g src dest byId s newParents
    let r2 := moveSourcesLoop g src dest byId newParents rest
    ⟨r.val ++ r2.val, r.calls ++ r2.calls, r.logs ++ r2.logs⟩

/-- Commands.move: resolves the one source argument (byId or by path) and
the destination, then iterates resolved sources times resolved destination
parents, collecting per-pair errors. -/
def Commands.move (g : Commands) (src dest : String) (byId : Bool) : Res (List MoveError) :=
  let sr := if byId then g.rem.findByIdMulti src else g.rem.findByPath src
  match sr.2 with
  | some e => ⟨[MoveError.srcResolve src e], [], []⟩
  | none =>
    let pr := g.rem.findByPath dest
    match pr.2 with
    | some e => ⟨[MoveError.destResolve dest e], [], []⟩
    | none => moveSourcesLoop g src dest byId pr.1 sr.1

/-- The source-argument loop of Commands.Move: a source whose common path
prefix with the destination is the source itself returns the nesting error
immediately; otherwise the per-source errors are printed and the loop
continues. -/
def moveRestLoop (g : Commands) (dest : String) (byId : Bool) :
    List String → Res (Option CmdError)
  | [] => ⟨none, [], []⟩
  | src :: rest =>
    if commonPrefixOf src dest = src then ⟨some (CmdError.nested src dest), [], []⟩
    else
      let r := g.move src dest byId
      let prints := r.val.map (fun e => LogEntry.printMoveErr src e)
      let r2 := moveRestLoop g dest byId rest
      ⟨r2.val, r.calls ++ r2.calls, r.logs ++ prints ++ r2.logs⟩

/-- Commands.Move: splits the arguments into sources and one destination and
runs the source-argument loop; with no nesting violation it returns nil. -/
def Commands.Move (g : Commands) (byId : Bool) : Res (Option CmdError) :=
  if g.opts.sources.length < 2 then
    ⟨some (CmdError.usage "move: expected one or more sources then a destination"), [], []⟩
  else
    let rest := g.opts.sources.dropLast
    let dest := g.opts.sources.getLast?.getD ""
    moveRestLoop g dest byId rest

/-- The duplicate loop of rename_: dereferences each duplicate and the
resolved source (a nil on either side is a Go panic); a duplicate that is
the source itself is skipped; without force the conflict is only logged;
with force the rename primitive runs and its error replaces the running
return value. -/
def renameDupLoop (g : Commands) (remSrc : Option File) (newName newFullPath : String)
    (err : Option GoError) : List (Option File) → Res RenameOut
  | [] => ⟨RenameOut.ret err, [], []⟩
  | dup :: rest =>
    match dup with
    | none => ⟨RenameOut.nilDeref "dup", [], []⟩
    | some d =>
      match remSrc with
      | none => ⟨RenameOut.nilDeref "remSrc", [], []⟩
      | some s =>
        if d.id = s.id then renameDupLoop g remSrc newName newFullPath err rest
        else if g.opts.force = false then
          let r := renameDupLoop g remSrc newName newFullPath err rest
          ⟨r.val, r.calls, LogEntry.renameConflict newFullPath :: r.logs⟩
        else
          let rn := g.rem.rename s.id newName
          let ls := match rn.2 with
            | some e => [LogEntry.renameCallErr s.id newName e]
            | none => []
          let r := renameDupLoop g remSrc newName newFullPath rn.2 rest
          ⟨r.val, StoreCall.rename s.id newName :: r.calls, ls ++ r.logs⟩

/-- rename_: computes the new full path (same parent directory, or the root
path byId, joined with the new name) and runs the duplicate loop only when
the duplicate check succeeded with at least one entry; otherwise the
duplicate check's error value is returned as is. -/
def rename_ (g : Commands) (src : String) (remSrc : Option File) (byId : Bool) :
    Res RenameOut :=
  let parentPath := if byId = false then g.parentPather src else g.opts.path
  let newName := g.opts.sources.getD 1 ""
  let urlBoundName := urlToPath newName true
  let newFullPath := filepathJoin parentPath urlBoundName
  let dc := g.rem.findByPath newFullPath
  if dc.2 = none ∧ 1 ≤ dc.1.length then
    renameDupLoop g remSrc newName newFullPath dc.2 dc.1
  else ⟨RenameOut.ret dc.2, [], []⟩

/-- The resolved-source loop of Commands.Rename: a nil entry is logged but
not skipped; each entry is handed to rename_, whose error is logged; the
loop result is nil unless a dereference panic interrupts it. -/
def renameSourcesLoop (g : Commands) (src : String) (byId : Bool) :
    List (Option File) → Res RenameOut
  | [] => ⟨RenameOut.ret none, [], []⟩
  | remSrc :: rest =>
    let ls0 := match remSrc with
      | none => [LogEntry.srcNotExist src]
      | some _ => []
    let r := rename_ g src remSrc byId
    match r.val with
    | RenameOut.nilDeref w => ⟨RenameOut.nilDeref w, r.calls, ls0 ++ r.logs⟩
    | RenameOut.ret e =>
      let ls1 := match e with
        | some ge => [LogEntry.renameFailed src ge]
        | none => []
      let r2 := renameSourcesLoop g src byId rest
      ⟨r2.val, r.calls ++ r2.calls, ls0 ++ r.logs ++ ls1 ++ r2.logs⟩

/-- Commands.Rename: resolves the sole source (byId or by path) and runs the
resolved-source loop; a resolver error is returned, per-entry errors only
logged.  (Go wraps the resolver error message with the source; the wrapping
is dropped here, the error value is kept.) -/
def Commands.Rename (g : Commands) (byId : Bool) : Res RenameOut :=
  if g.opts.sources.length < 2 then
    ⟨RenameOut.ret (some (GoError.other "rename: expecting a source and a new name")), [], []⟩
  else
    let src := g.opts.sources.getD 0 ""
    let rs := if byId then g.rem.findByIdMulti src else g.rem.findByPath src
    match rs.2 with
    | some e => ⟨RenameOut.ret (some e), [], []⟩
    | none => renameSourcesLoop g src byId rs.1

/-- The destination loop of the leaf branch of Commands.copy: parentId and
destBase are loop-carried state in Go (a directory destination overwrites
both for the rest of the loop); every iteration issues the copy primitive,
collecting the returned copy and error. -/
def copyLeafLoop (g : Commands) (src : File) :
    String → String → List (Option File) → Res (List File × List CopyError)
  | _, _, [] => ⟨([], []), [], []⟩
  | destBase, parentId, df :: rest =>
    let st : String × String :=
      match df with
      | some d => if d.isDir then (src.name, d.id) else (destBase, parentId)
      | none => (destBase, parentId)
    let c := g.rem.copy st.1 st.2 src
    let copies := match c.1 with
      | some cp => [cp]
      | none => []
    let errs := match c.2 with
      | some e => [CopyError.store e]
      | none => []
    let r := copyLeafLoop g src st.1 st.2 rest
    ⟨(copies ++ r.val.1, errs ++ r.val.2), StoreCall.copy st.1 st.2 src :: r.calls, r.logs⟩

/-- Commands.copy: the recursive copy engine, returning the produced copies
and the collected errors.  Leaves fail fast when non-copyable, create the
destination's parent directory, and run the destination loop; directories
create the destination directory and recurse sequentially over one level of
children (fuel bounds the recursion depth of the embedding; the recursive
child branch consumes one unit). -/
def Commands.copy (g : Commands) : Nat → Option File → String → Res (List File × List CopyError)
  | _, none, _ => ⟨([], [CopyError.nonExistantSrc]), [], []⟩
  | fuel, some src, destPath =>
    if src.isDir = false then
      if src.copyable = false then ⟨([], [CopyError.nonCopyable src.name]), [], []⟩
      else
        let ds := g.pathSplitter destPath
        match g.remoteMkdirAll ds.1 with
        | Except.error e => ⟨([], [CopyError.store e]), [], []⟩
        | Except.ok destParent =>
          let dr := g.rem.findByPath destPath
          match hardErr dr.2 with
          | some e => ⟨([], [CopyError.store e]), [], []⟩
          | none => copyLeafLoop g src ds.2 destParent.id dr.1
    else
      match g.remoteMkdirAll destPath with
      | Except.error e => ⟨([], [CopyError.store e]), [], []⟩
      | Except.ok destFile =>
        match fuel with
        | 0 => ⟨([destFile], [CopyError.fuelExhausted]), [], []⟩
        | fuel' + 1 =>
          let children := g.rem.findChildren src.id false
          let rs := children.map (fun child =>
            let chName := sepJoin "/" destPath child.name
            (Commands.copy g fuel' (some child) chName, chName))
          let calls := (rs.map (fun rc => rc.1.calls)).flatten
          let logs := (rs.map (fun rc =>
            rc.1.logs ++
              (if rc.1.val.2 = [] then [] else [LogEntry.copyChildErr rc.2 rc.1.val.2]))).flatten
          ⟨([destFile], []), calls, logs⟩

/-- The task loop of copy_: in Go each resolved source file is copied in its
own goroutine and joined on a channel barrier; the embedding serializes the
tasks in source order.  A task error list is only logged. -/
def copyTasksLoop (g : Commands) (fuel : Nat) (srcPath dest : String) :
    List (Option File) → Res Unit
  | [] => ⟨(), [], []⟩
  | f :: rest =>
    let r := Commands.copy g fuel f dest
    let ls := if r.val.2 = [] then [] else [LogEntry.copyTaskErr srcPath r.val.2]
    let r2 := copyTasksLoop g fuel srcPath dest rest
    ⟨(), r.calls ++ r2.calls, r.logs ++ ls ++ r2.logs⟩

/-- The source loop of copy_: a resolution error is logged and the source
skipped; otherwise each resolved file becomes a copy task. -/
def copySourcesLoop (g : Commands) (fuel : Nat) (dest : String) (byId : Bool) :
    List String → Res Unit
  | [] => ⟨(), [], []⟩
  | srcPath :: rest =>
    let sr := if byId then g.rem.findByIdMulti srcPath else g.rem.findByPath srcPath
    match sr.2 with
    | some e =>
      let r2 := copySourcesLoop g fuel dest byId rest
      ⟨(), r2.calls, LogEntry.copyResolveErr srcPath e :: r2.logs⟩
    | none =>
      let r := copyTasksLoop g fuel srcPath dest sr.1
      let r2 := copySourcesLoop g fuel dest byId rest
      ⟨(), r.calls ++ r2.calls, r.logs ++ r2.logs⟩

/-- copy_: with more than one source the destination must not be an existing
non-directory and is created via remoteMkdirAll; then the source loop runs.
Its own error list is non-empty only for those two multi-source failures. -/
def copy_ (g : Commands) (fuel : Nat) (dest : String) (destFile : Option File)
    (sources : List String) (byId : Bool) : Res (List CopyError) :=
  if 1 < sources.length then
    if destFile.any (fun df => !df.isDir) then ⟨[CopyError.notDir dest], [], []⟩
    else
      match g.remoteMkdirAll dest with
      | Except.error e => ⟨[CopyError.store e], [], []⟩
      | Except.ok _ =>
        let r := copySourcesLoop g fuel dest byId sources
        ⟨[], r.calls, r.logs⟩
  else
    let r := copySourcesLoop g fuel dest byId sources
    ⟨[], r.calls, r.logs⟩

/-- The destination loop of Commands.Copy: nil resolved destinations are
skipped; each real one runs copy_, whose errors are logged against its
identity. -/
def copyDestLoop (g : Commands) (fuel : Nat) (dest : String) (sources : List String)
    (byId : Bool) : List (Option File) → Res Unit
  | [] => ⟨(), [], []⟩
  | none :: rest => copyDestLoop g fuel dest sources byId rest
  | some df :: rest =>
    let r := copy_ g fuel dest (some df) sources byId
    let prints := r.val.map (fun e => LogEntry.copyUnderscoreErr df.id e)
    let r2 := copyDestLoop g fuel dest sources byId rest
    ⟨(), r.calls ++ r2.calls, r.logs ++ prints ++ r2.logs⟩

/-- Commands.Copy: splits the arguments into sources and one destination,
resolves the destination (tolerating path-not-exists), and runs the
destination loop; it always returns nil after that. -/
def Commands.Copy (g : Commands) (fuel : Nat) (byId : Bool) : Res (Option GoError) :=
  if g.opts.sources.length < 2 then
    ⟨some (GoError.other "expecting one or more sources then a destination"), [], []⟩
  else
    let sources := g.opts.sources.dropLast
    let dest := g.opts.sources.getLast?.getD ""
    let dr := g.rem.findByPath dest
    match hardErr dr.2 with
    | some e => ⟨some e, [], []⟩
    | none =>
      let r := copyDestLoop g fuel dest sources byId dr.1
      ⟨none, r.calls, LogEntry.processing :: r.logs⟩

/-! Concrete store environments and command contexts used to evaluate the
theorems below on explicit inputs. -/

/-- A store with no objects: every resolution reports path-not-exists and
every mutation succeeds. -/
def remEmpty : Rem :=
  ⟨fun _ => ([], some GoError.pathNotExists),
   fun _ => ([], some GoError.pathNotExists),
   fun _ _ => none,
   fun _ _ => none,
   fun _ _ => (none, none),
   fun _ _ _ => (none, none),
   fun _ _ => [],
   fun _ => Except.error GoError.pathNotExists⟩

/-- A leaf object used as a move source. -/
def fC1 : File := ⟨"f1", "n", false, true⟩

/-- A directory object used as a move destination parent. -/
def dirC1 : File := ⟨"p1", "d", true, true⟩

/-- Store in which the exact destination path d/n resolves to the source
object itself. -/
def remC1 : Rem :=
  ⟨fun p => if p = "d/n" then ([some fC1], none) else ([], some GoError.pathNotExists),
   fun _ => ([], some GoError.pathNotExists),
   fun _ _ => none,
   fun _ _ => none,
   fun _ _ => (none, none),
   fun _ _ _ => (none, none),
   fun _ _ => [],
   fun _ => Except.error GoError.pathNotExists⟩

/-- Context for the already-exactly-there move. -/
def gC1 : Commands := ⟨⟨["x", "d"], false, ""⟩, remC1⟩

/-- Pair options for the already-exactly-there move (identifier mode, so no
old-parent stage). -/
def optC1 : moveOpt := ⟨"x", "d", true, some fC1, dirC1⟩

/-- Context whose argument list nests the first source inside the
destination. -/
def gC2 : Commands := ⟨⟨["a", "a/b"], false, ""⟩, remEmpty⟩

/-- A resolvable, movable source for the batch short-circuit run. -/
def fOk : File := ⟨"okid", "ok", false, true⟩

/-- The resolved destination directory for the batch short-circuit run. -/
def fDirB : File := ⟨"dirid", "b", true, true⟩

/-- Store in which the second source ok and the destination a/b resolve and
a move of ok would reach the parent-edge insertion. -/
def remC5 : Rem :=
  ⟨fun p =>
    if p = "ok" then ([some fOk], none)
    else if p = "a/b" then ([some fDirB], none)
    else if p = "" then ([], none)
    else ([], some GoError.pathNotExists),
   fun _ => ([], some GoError.pathNotExists),
   fun _ _ => none,
   fun _ _ => none,
   fun _ _ => (none, none),
   fun _ _ _ => (none, none),
   fun _ _ => [],
   fun _ => Except.error GoError.pathNotExists⟩

/-- Context with three arguments whose first source is nested inside the
destination while the second would move cleanly. -/
def gC5 : Commands := ⟨⟨["a", "ok", "a/b"], false, ""⟩, remC5⟩

/-- Context with two unrelated argument paths over the empty store. -/
def gC10 : Commands := ⟨⟨["x", "y"], false, ""⟩, remEmpty⟩

/-- The move source for the duplicate-gating run. -/
def fC7 : File := ⟨"sid", "n", false, true⟩

/-- The different-identity occupant of the destination path. -/
def otherC7 : File := ⟨"oid", "n", false, true⟩

/-- The destination parent directory for the duplicate-gating run. -/
def dirC7 : File := ⟨"pid", "d", true, true⟩

/-- Store in which the exact destination path d/n is occupied by a
different object. -/
def remC7 : Rem :=
  ⟨fun p =>
    if p = "d/n" then ([some otherC7], none)
    else if p = "" then ([], none)
    else ([], some GoError.pathNotExists),
   fun _ => ([], some GoError.pathNotExists),
   fun _ _ => none,
   fun _ _ => none,
   fun _ _ => (none, none),
   fun _ _ _ => (none, none),
   fun _ _ => [],
   fun _ => Except.error GoError.pathNotExists⟩

/-- Context for the duplicate-gating run, force unset. -/
def gC7 : Commands := ⟨⟨["s", "d"], false, ""⟩, remC7⟩

/-- Pair options for the duplicate-gating run. -/
def optC7 : moveOpt := ⟨"s", "d", false, some fC7, dirC7⟩

/-- The move source for the failed-old-parent-removal run. -/
def fC6 : File := ⟨"sid6", "n", false, true⟩

/-- The destination parent directory for the failed-old-parent-removal
run. -/
def dirC6 : File := ⟨"pid6", "d", true, true⟩

/-- The old parent directory whose edge removal will fail. -/
def oldParC6 : File := ⟨"old6", "o", true, true⟩

/-- Store in which the source's parent path o resolves, the destination
path is free, edge insertion succeeds and edge removal fails. -/
def remC6 : Rem :=
  ⟨fun p => if p = "o" then ([some oldParC6], none) else ([], some GoError.pathNotExists),
   fun _ => ([], some GoError.pathNotExists),
   fun _ _ => none,
   fun _ _ => some (GoError.other "edge removal failed"),
   fun _ _ => (none, none),
   fun _ _ _ => (none, none),
   fun _ _ => [],
   fun _ => Except.error GoError.pathNotExists⟩

/-- Context for the failed-old-parent-removal run. -/
def gC6 : Commands := ⟨⟨["o/n", "d"], false, ""⟩, remC6⟩

/-- Pair options for the failed-old-parent-removal run. -/
def optC6 : moveOpt := ⟨"o/n", "d", false, some fC6, dirC6⟩

/-- The resolvable rename source. -/
def fC3 : File := ⟨"f3", "old", false, true⟩

/-- Store in which the rename source old resolves and the new name is
free. -/
def remC3 : Rem :=
  ⟨fun p => if p = "old" then ([some fC3], none) else ([], some GoError.pathNotExists),
   fun _ => ([], some GoError.pathNotExists),
   fun _ _ => none,
   fun _ _ => none,
   fun _ _ => (none, none),
   fun _ _ _ => (none, none),
   fun _ _ => [],
   fun _ => Except.error GoError.pathNotExists⟩

/-- Context for renaming old to the free name new. -/
def gC3 : Commands := ⟨⟨["old", "new"], false, ""⟩, remC3⟩

/-- The copyable single copy source. -/
def leafC4 : File := ⟨"lid", "src", false, true⟩

/-- Store in which the copy source resolves and the destination path does
not exist. -/
def remC4 : Rem :=
  ⟨fun p => if p = "src" then ([some leafC4], none) else ([], some GoError.pathNotExists),
   fun _ => ([], some GoError.pathNotExists),
   fun _ _ => none,
   fun _ _ => none,
   fun _ _ => (none, none),
   fun _ _ _ => (none, none),
   fun _ _ => [],
   fun _ => Except.error GoError.pathNotExists⟩

/-- Context for copying src onto the non-existent path newdest. -/
def gC4 : Commands := ⟨⟨["src", "newdest"], false, ""⟩, remC4⟩

/-- The leaf source of the copy-into-directory run. -/
def leafC8 : File := ⟨"lid8", "x", false, true⟩

/-- The existing directory occupying the copy destination path. -/
def dirC8 : File := ⟨"zid", "z", true, true⟩

/-- The root directory returned when creating the empty parent path. -/
def rootC8 : File := ⟨"root", "", true, true⟩

/-- Store in which the copy destination path z is occupied by a directory
and the empty parent path is creatable. -/
def remC8 : Rem :=
  ⟨fun p => if p = "z" then ([some dirC8], none) else ([], some GoError.pathNotExists),
   fun _ => ([], some GoError.pathNotExists),
   fun _ _ => none,
   fun _ _ => none,
   fun _ _ => (none, none),
   fun _ _ _ => (none, none),
   fun _ _ => [],
   fun p => if p = "" then Except.ok rootC8 else Except.error GoError.pathNotExists⟩

/-- Context for the copy-into-directory run. -/
def gC8 : Commands := ⟨⟨["x", "z"], false, ""⟩, remC8⟩

/-- An occupant of the rename target path for the nil-dereference run. -/
def dupC9 : File := ⟨"did", "n", false, true⟩

/-- Store in which the rename source path x resolves to one nil entry and
the rename target path n is occupied. -/
def remC9 : Rem :=
  ⟨fun p =>
    if p = "x" then ([none], none)
    else if p = "n" then ([some dupC9], none)
    else ([], some GoError.pathNotExists),
   fun _ => ([], some GoError.pathNotExists),
   fun _ _ => none,
   fun _ _ => none,
   fun _ _ => (none, none),
   fun _ _ _ => (none, none),
   fun _ _ => [],
   fun _ => Except.error GoError.pathNotExists⟩

/-- Context for renaming the nil-resolving source x to n. -/
def gC9 : Commands := ⟨⟨["x", "n"], false, ""⟩, remC9⟩

/-! Support lemmas about the loop helpers. -/

/-- A duplicate scan whose non-nil entries all carry the source identity and
which has at least one non-nil entry aborts with the move-to-self error. -/
theorem dupLoop_all_self (srcId : String) (force : Bool) (p : String) :
    ∀ (l : List (Option File)), (∀ x : File, some x ∈ l → x.id = srcId) →
      (∃ x : File, some x ∈ l) →
      dupLoop srcId force p l = some (MoveError.moveToSelf srcId srcId) := by
  intro l
  induction l with
  | nil =>
    intro _ hex
    rcases hex with ⟨x, hx⟩
    simp at hx
  | cons hd tl ih =>
    intro hall hex
    cases hd with
    | none =>
      have hex' : ∃ x : File, some x ∈ tl := by
        rcases hex with ⟨x, hx⟩
        rcases List.mem_cons.mp hx with h | h
        · exact absurd h (by simp)
        · exact ⟨x, h⟩
      have hall' : ∀ x : File, some x ∈ tl → x.id = srcId :=
        fun x hx => hall x (List.mem_cons_of_mem _ hx)
      simpa [dupLoop] using ih hall' hex'
    | some d =>
      have hd' : d.id = srcId := hall d (List.mem_cons_self _ _)
      simp [dupLoop, hd']

/-- A duplicate scan with force unset whose non-nil entries all differ from
the source identity, with at least one non-nil entry, aborts with the
duplicate-conflict error. -/
theorem dupLoop_all_diff_noforce (srcId p : String) :
    ∀ (l : List (Option File)), (∀ x : File, some x ∈ l → x.id ≠ srcId) →
      (∃ x : File, some x ∈ l) →
      dupLoop srcId false p l = some (MoveError.duplicateConflict p ForceKey) := by
  intro l
  induction l with
  | nil =>
    intro _ hex
    rcases hex with ⟨x, hx⟩
    simp at hx
  | cons hd tl ih =>
    intro hall hex
    cases hd with
    | none =>
      have hex' : ∃ x : File, some x ∈ tl := by
        rcases hex with ⟨x, hx⟩
        rcases List.mem_cons.mp hx with h | h
        · exact absurd h (by simp)
        · exact ⟨x, h⟩
      have hall' : ∀ x : File, some x ∈ tl → x.id ≠ srcId :=
        fun x hx => hall x (List.mem_cons_of_mem _ hx)
      simpa [dupLoop] using ih hall' hex'
    | some d =>
      have hd' : d.id ≠ srcId := hall d (List.mem_cons_self _ _)
      simp [dupLoop, hd']

/-- A duplicate scan with force set whose non-nil entries all differ from
the source identity proceeds. -/
theorem dupLoop_all_diff_force (srcId p : String) :
    ∀ (l : List (Option File)), (∀ x : File, some x ∈ l → x.id ≠ srcId) →
      dupLoop srcId true p l = none := by
  intro l
  induction l with
  | nil => intro _; simp [dupLoop]
  | cons hd tl ih =>
    intro hall
    have hall' : ∀ x : File, some x ∈ tl → x.id ≠ srcId :=
      fun x hx => hall x (List.mem_cons_of_mem _ hx)
    cases hd with
    | none => simpa [dupLoop] using ih hall'
    | some d =>
      have hd' : d.id ≠ srcId := hall d (List.mem_cons_self _ _)
      simpa [dupLoop, hd'] using ih hall'

/-- A passing old-parent scan means no non-nil old parent carries the new
parent identity. -/
theorem sameParentScan_none (pid : String) :
    ∀ (l : List (Option File)), sameParentScan pid l = none →
      ∀ x : File, some x ∈ l → x.id ≠ pid := by
  intro l
  induction l with
  | nil => intro _ x hx; simp at hx
  | cons hd tl ih =>
    intro hscan x hx
    cases hd with
    | none =>
      rcases List.mem_cons.mp hx with h | h
      · exact absurd h (by simp)
      · exact ih (by simpa [sameParentScan] using hscan) x h
    | some d =>
      by_cases hdp : d.id = pid
      · simp [sameParentScan, hdp] at hscan
      · rcases List.mem_cons.mp hx with h | h
        · have hxd : x = d := by simpa using h
          rw [hxd]; exact hdp
        · exact ih (by simpa [sameParentScan, hdp] using hscan) x h

/-- The remove-parent loop over non-nil parents always ends in success. -/
theorem removeParentLoop_val (g : Commands) (fileId relPath parentPath : String) :
    ∀ (l : List (Option File)), (∀ d ∈ l, d ≠ none) →
      (removeParentLoop g fileId relPath parentPath l).val = none := by
  intro l
  induction l with
  | nil => intro _; simp [removeParentLoop]
  | cons hd tl ih =>
    intro hall
    cases hd with
    | none => exact absurd rfl (hall none (List.mem_cons_self _ _))
    | some d =>
      simp only [removeParentLoop]
      exact ih (fun d' hd' => hall d' (List.mem_cons_of_mem _ hd'))

/-- A failing removeParent store call against a discovered parent leaves its
log line in the remove-parent loop's log. -/
theorem removeParentLoop_log_mem (g : Commands) (fileId relPath parentPath : String)
    (f : File) (e : GoError) (he : g.rem.removeParent fileId f.id = some e) :
    ∀ (l : List (Option File)), some f ∈ l → (∀ d ∈ l, d ≠ none) →
      LogEntry.removeParentErr fileId relPath e ∈
        (removeParentLoop g fileId relPath parentPath l).logs := by
  intro l
  induction l with
  | nil => intro h _; simp at h
  | cons hd tl ih =>
    intro hmem hall
    cases hd with
    | none => exact absurd rfl (hall none (List.mem_cons_self _ _))
    | some d =>
      rcases List.mem_cons.mp hmem with h | h
      · have hfd : f = d := by simpa using h
        subst hfd
        simp only [removeParentLoop, he]
        exact List.mem_append_left _ (by simp)
      · have hrec := ih h (fun d' hd' => hall d' (List.mem_cons_of_mem _ hd'))
        simp only [removeParentLoop]
        exact List.mem_append_right _ hrec

/-- Every store call issued by the remove-parent loop removes an edge to one
of the discovered parents. -/
theorem removeParentLoop_calls (g : Commands) (fileId relPath parentPath : String) :
    ∀ (l : List (Option File)) (c : StoreCall),
      c ∈ (removeParentLoop g fileId relPath parentPath l).calls →
      ∃ x : File, some x ∈ l ∧ c = StoreCall.removeParent fileId x.id := by
  intro l
  induction l with
  | nil => intro c hc; simp [removeParentLoop] at hc
  | cons hd tl ih =>
    intro c hc
    cases hd with
    | none => simp [removeParentLoop] at hc
    | some d =>
      simp only [removeParentLoop] at hc
      rcases List.mem_cons.mp hc with h | h
      · exact ⟨d, List.mem_cons_self _ _, h⟩
      · rcases ih c h with ⟨x, hx, hcx⟩
        exact ⟨x, List.mem_cons_of_mem _ hx, hcx⟩

/-- Over sources with no nesting violation, the source-argument loop of Move
returns nil, issues every source's store calls, and prints every source's
collected errors. -/
theorem moveRestLoop_clean (g : Commands) (dest : String) (byId : Bool) :
    ∀ (srcs : List String), (∀ s ∈ srcs, commonPrefixOf s dest ≠ s) →
      moveRestLoop g dest byId srcs =
        ⟨none,
         (srcs.map (fun s => (g.move s dest byId).calls)).flatten,
         (srcs.map (fun s => (g.move s dest byId).logs ++
           (g.move s dest byId).val.map (fun e => LogEntry.printMoveErr s e))).flatten⟩ := by
  intro srcs
  induction srcs with
  | nil => intro _; simp [moveRestLoop]
  | cons s rest ih =>
    intro hall
    have hs : commonPrefixOf s dest ≠ s := hall s (List.mem_cons_self _ _)
    have ih' := ih (fun x hx => hall x (List.mem_cons_of_mem _ hx))
    simp [moveRestLoop, hs, ih']

/-- A nested source after only non-nested ones makes the source-argument
loop return the nesting error, with the store calls and prints of exactly
the earlier sources. -/
theorem moveRestLoop_nested (g : Commands) (dest : String) (byId : Bool)
    (src : String) (post : List String) (hsrc : commonPrefixOf src dest = src) :
    ∀ (pre : List String), (∀ p ∈ pre, commonPrefixOf p dest ≠ p) →
      moveRestLoop g dest byId (pre ++ src :: post) =
        ⟨some (CmdError.nested src dest),
         (pre.map (fun s => (g.move s dest byId).calls)).flatten,
         (pre.map (fun s => (g.move s dest byId).logs ++
           (g.move s dest byId).val.map (fun e => LogEntry.printMoveErr s e))).flatten⟩ := by
  intro pre
  induction pre with
  | nil => intro _; simp [moveRestLoop, hsrc]
  | cons p ps ih =>
    intro hpre
    have hp : commonPrefixOf p dest ≠ p := hpre p (List.mem_cons_self _ _)
    have ih' := ih (fun x hx => hpre x (List.mem_cons_of_mem _ hx))
    simp [moveRestLoop, hp, ih']

/-- The destination loop of the leaf copy: whenever some position holds a
directory, that iteration's copy call uses the directory's identity as
parent and the source's own base name, whatever the loop state. -/
theorem copyLeafLoop_dir_mem (g : Commands) (src d : File) (hdir : d.isDir = true)
    (post : List (Option File)) :
    ∀ (pre : List (Option File)) (base pid : String),
      StoreCall.copy src.name d.id src ∈
        (copyLeafLoop g src base pid (pre ++ some d :: post)).calls := by
  intro pre
  induction pre with
  | nil =>
    intro base pid
    simp [copyLeafLoop, hdir]
  | cons hd tl ih =>
    intro base pid
    cases hd with
    | none =>
      simp only [List.cons_append, copyLeafLoop]
      exact List.mem_cons_of_mem _ (ih base pid)
    | some x =>
      by_cases hx : x.isDir
      · simp only [List.cons_append, copyLeafLoop, hx]
        exact List.mem_cons_of_mem _ (ih src.name x.id)
      · simp only [List.cons_append, copyLeafLoop, hx]
        exact List.mem_cons_of_mem _ (ih base pid)

/-! Claim theorems. -/

/-- Claim C1, counterexample: a per-pair move whose exact destination path
already resolves to the source object itself fails with the move-to-self
error instead of succeeding as a no-op. -/
theorem move_self_dup_cex :
    (move_ gC1 optC1).val = some (MoveError.moveToSelf "f1" "f1") := rfl

/-- Claim C1 (amended): when the object resolved at the exact destination
path has the source's own identity, the per-pair move fails with the
move-to-self error, issuing no store mutation — it is not treated as an
idempotent no-op success. -/
theorem move_self_dup_errors (g : Commands) (opt : moveOpt) (s : File)
    (dups : List (Option File)) (e : Option GoError)
    (hsrc : opt.srcFile = some s)
    (hold : oldParentCheck g opt opt.destFile.id = none)
    (hfind : g.rem.findByPath (filepathJoin opt.dest s.name) = (dups, e))
    (hhard : hardErr e = none)
    (hall : ∀ x : File, some x ∈ dups → x.id = s.id)
    (hex : ∃ x : File, some x ∈ dups) :
    (move_ g opt).val = some (MoveError.moveToSelf s.id s.id) ∧
    (move_ g opt).calls = [] := by
  have hdup := dupLoop_all_self s.id g.opts.force (filepathJoin opt.dest s.name) dups hall hex
  simp [move_, hsrc, hold, hfind, hhard, hdup]

/-- The amended C1 theorem at a concrete input: re-running the move of x
into d when d/n is already the source itself fails with the move-to-self
error and an empty call trace. -/
theorem move_self_dup_errors_witness :
    (move_ gC1 optC1).val = some (MoveError.moveToSelf "f1" "f1") ∧
    (move_ gC1 optC1).calls = [] :=
  move_self_dup_errors gC1 optC1 fC1 [some fC1] none rfl rfl rfl rfl
    (fun x hx => by
      have hx' : x = fC1 := by simpa using hx
      rw [hx'])
    ⟨fC1, by simp⟩

/-- Claim C2: a source whose longest common path prefix with the
destination equals the source itself makes Move return the nesting error,
the store mutation trace holding only the calls of the earlier, non-nested
sources — none for the nested source or anything after it. -/
theorem Move_rejects_nested (g : Commands) (byId : Bool)
    (pre : List String) (src : String) (post : List String) (dest : String)
    (hs : g.opts.sources = pre ++ src :: post ++ [dest])
    (hpre : ∀ p ∈ pre, commonPrefixOf p dest ≠ p)
    (hsrc : commonPrefixOf src dest = src) :
    (g.Move byId).val = some (CmdError.nested src dest) ∧
    (g.Move byId).calls = (pre.map (fun s => (g.move s dest byId).calls)).flatten := by
  have hassoc : pre ++ src :: post ++ [dest] = (pre ++ src :: post) ++ [dest] := by
    simp
  have hlen : ¬ g.opts.sources.length < 2 := by
    rw [hs, hassoc]
    simp
    omega
  have hdrop : g.opts.sources.dropLast = pre ++ src :: post := by
    rw [hs, hassoc, List.dropLast_concat]
  have hlast : g.opts.sources.getLast?.getD "" = dest := by
    rw [hs, hassoc, List.getLast?_concat]
    rfl
  have hrest := moveRestLoop_nested g dest byId src post hsrc pre hpre
  simp only [Commands.Move, if_neg hlen, hdrop, hlast, hrest]
  constructor <;> trivial

/-- The C2 theorem at a concrete input: moving a into a/b returns the
nesting error with an empty call trace. -/
theorem Move_rejects_nested_witness :
    (gC2.Move false).val = some (CmdError.nested "a" "a/b") ∧
    (gC2.Move false).calls =
      (([] : List String).map (fun s => (gC2.move s "a/b" false).calls)).flatten :=
  Move_rejects_nested gC2 false [] "a" [] "a/b" rfl (by simp) rfl

/-- Claim C5, counterexample: in the batch moving a and ok into a/b, the
structural nesting failure of the first source a aborts Move before the
second source ok is attempted (empty call trace), even though the pair for
ok alone issues its parent-edge insertion. -/
theorem Move_shortcircuits_on_nesting_cex :
    (gC5.Move false).val = some (CmdError.nested "a" "a/b") ∧
    (gC5.Move false).calls = [] ∧
    (gC5.move "ok" "a/b" false).calls = [StoreCall.insertParent "okid" "dirid"] :=
  ⟨rfl, rfl, rfl⟩

/-- Claim C5 (amended): failures inside the per-source engine (resolution,
duplicate and mutation errors) are collected and printed per pair and never
abort the remaining source arguments — every source's calls and error
prints appear in order; a structural nesting failure, by contrast, returns
immediately and does abort the remaining sources (counterexample above). -/
theorem Move_attempts_all_without_nesting (g : Commands) (byId : Bool)
    (h2 : 2 ≤ g.opts.sources.length)
    (hclean : ∀ s ∈ g.opts.sources.dropLast,
      commonPrefixOf s (g.opts.sources.getLast?.getD "") ≠ s) :
    (g.Move byId).calls =
      ((g.opts.sources.dropLast).map
        (fun s => (g.move s (g.opts.sources.getLast?.getD "") byId).calls)).flatten ∧
    (g.Move byId).logs =
      ((g.opts.sources.dropLast).map
        (fun s => (g.move s (g.opts.sources.getLast?.getD "") byId).logs ++
          (g.move s (g.opts.sources.getLast?.getD "") byId).val.map
            (fun e => LogEntry.printMoveErr s e))).flatten := by
  have hlen : ¬ g.opts.sources.length < 2 := by omega
  have hrest := moveRestLoop_clean g (g.opts.sources.getLast?.getD "") byId
    g.opts.sources.dropLast hclean
  simp only [Commands.Move, if_neg hlen, hrest]
  constructor <;> trivial

/-- The amended C5 theorem at a concrete input: moving x into y (source x
unresolvable) prints the per-pair resolution error and issues the calls of
every source argument. -/
theorem Move_attempts_all_without_nesting_witness :
    (gC10.Move false).calls =
      ((gC10.opts.sources.dropLast).map
        (fun s => (gC10.move s (gC10.opts.sources.getLast?.getD "") false).calls)).flatten ∧
    (gC10.Move false).logs =
      ((gC10.opts.sources.dropLast).map
        (fun s => (gC10.move s (gC10.opts.sources.getLast?.getD "") false).logs ++
          (gC10.move s (gC10.opts.sources.getLast?.getD "") false).val.map
            (fun e => LogEntry.printMoveErr s e))).flatten :=
  Move_attempts_all_without_nesting gC10 false (by decide) (by decide)

/-- Claim C10: with two or more arguments and no source nested under the
destination, Move's own return value is nil — per-pair errors are printed,
never propagated through the returned error. -/
theorem Move_returns_nil_without_nesting (g : Commands) (byId : Bool)
    (h2 : 2 ≤ g.opts.sources.length)
    (hclean : ∀ s ∈ g.opts.sources.dropLast,
      commonPrefixOf s (g.opts.sources.getLast?.getD "") ≠ s) :
    (g.Move byId).val = none := by
  have hlen : ¬ g.opts.sources.length < 2 := by omega
  have hrest := moveRestLoop_clean g (g.opts.sources.getLast?.getD "") byId
    g.opts.sources.dropLast hclean
  simp only [Commands.Move, if_neg hlen, hrest]

/-- The C10 theorem at a concrete input: moving the unresolvable x into y
returns nil from Move itself. -/
theorem Move_returns_nil_without_nesting_witness :
    (gC10.Move false).val = none :=
  Move_returns_nil_without_nesting gC10 false (by decide) (by decide)

/-- Claim C6: in a non-identifier-mode move whose new-parent-edge insertion
succeeded, a failing removeParent store call is only logged: the pair still
reports success, the inserted destination edge is not rolled back (no
removal of the new parent edge appears in the trace), and the old parent
edge may remain. -/
theorem move_removeParent_failure_logged (g : Commands) (opt : moveOpt) (s : File)
    (parents : List (Option File)) (f : File) (e : GoError)
    (hsrc : opt.srcFile = some s)
    (hby : opt.byId = false)
    (hpp : g.rem.findByPath (g.parentPather opt.src) = (parents, none))
    (hscan : sameParentScan opt.destFile.id parents = none)
    (hnn : ∀ d ∈ parents, d ≠ none)
    (hhard : hardErr (g.rem.findByPath (filepathJoin opt.dest s.name)).2 = none)
    (hdup : dupLoop s.id g.opts.force (filepathJoin opt.dest s.name)
      (g.rem.findByPath (filepathJoin opt.dest s.name)).1 = none)
    (hne : s.id ≠ opt.destFile.id)
    (hins : g.rem.insertParent s.id opt.destFile.id = none)
    (hf : some f ∈ parents)
    (he : g.rem.removeParent s.id f.id = some e) :
    (move_ g opt).val = none ∧
    StoreCall.insertParent s.id opt.destFile.id ∈ (move_ g opt).calls ∧
    StoreCall.removeParent s.id opt.destFile.id ∉ (move_ g opt).calls ∧
    LogEntry.removeParentErr s.id opt.src e ∈ (move_ g opt).logs := by
  have hold : oldParentCheck g opt opt.destFile.id = none := by
    simp [oldParentCheck, hby, hpp, hardErr, hscan]
  have hrp : g.removeParent s.id opt.src =
      removeParentLoop g s.id opt.src (g.parentPather opt.src) parents := by
    simp [Commands.removeParent, hpp]
  have hmv : move_ g opt =
      ⟨(removeParentLoop g s.id opt.src (g.parentPather opt.src) parents).val,
       StoreCall.insertParent s.id opt.destFile.id ::
         (removeParentLoop g s.id opt.src (g.parentPather opt.src) parents).calls,
       (removeParentLoop g s.id opt.src (g.parentPather opt.src) parents).logs⟩ := by
    simp [move_, hsrc, hold, hhard, hdup, hne, hins, hby, hrp]
  refine ⟨?_, ?_, ?_, ?_⟩
  · rw [hmv]
    exact removeParentLoop_val g s.id opt.src (g.parentPather opt.src) parents hnn
  · rw [hmv]
    exact List.mem_cons_self _ _
  · rw [hmv]
    intro hmem
    rcases List.mem_cons.mp hmem with h | h
    · exact StoreCall.noConfusion h
    · rcases removeParentLoop_calls g s.id opt.src (g.parentPather opt.src) parents _ h with
        ⟨x, hx, hcx⟩
      have hxid : x.id = opt.destFile.id := by
        injection hcx with h1 h2
        exact h2.symm
      exact sameParentScan_none opt.destFile.id parents hscan x hx hxid
  · rw [hmv]
    exact removeParentLoop_log_mem g s.id opt.src (g.parentPather opt.src) f e he
      parents hf hnn

/-- The C6 theorem at a concrete input: moving o/n into d succeeds although
removing the old parent edge fails; the insertion stays, no rollback call
appears, and the failure is logged. -/
theorem move_removeParent_failure_logged_witness :
    (move_ gC6 optC6).val = none ∧
    StoreCall.insertParent "sid6" "pid6" ∈ (move_ gC6 optC6).calls ∧
    StoreCall.removeParent "sid6" "pid6" ∉ (move_ gC6 optC6).calls ∧
    LogEntry.removeParentErr "sid6" "o/n" (GoError.other "edge removal failed") ∈
      (move_ gC6 optC6).logs :=
  move_removeParent_failure_logged gC6 optC6 fC6 [some oldParC6] oldParC6
    (GoError.other "edge removal failed") rfl rfl rfl rfl (by simp) rfl rfl
    (by decide) rfl (by simp) rfl

/-- Claim C7: with a different-identity occupant at the exact destination
path, the pair fails with the duplicate-conflict error naming the path and
the force flag and issues no store call when force is unset, and proceeds
to the parent-edge insertion when force is set. -/
theorem move_duplicate_gating (g : Commands) (opt : moveOpt) (s : File)
    (dups : List (Option File)) (e : Option GoError)
    (hsrc : opt.srcFile = some s)
    (hold : oldParentCheck g opt opt.destFile.id = none)
    (hfind : g.rem.findByPath (filepathJoin opt.dest s.name) = (dups, e))
    (hhard : hardErr e = none)
    (hdiff : ∀ x : File, some x ∈ dups → x.id ≠ s.id)
    (hex : ∃ x : File, some x ∈ dups) :
    (g.opts.force = false →
      (move_ g opt).val =
        some (MoveError.duplicateConflict (filepathJoin opt.dest s.name) ForceKey) ∧
      (move_ g opt).calls = []) ∧
    (g.opts.force = true → s.id ≠ opt.destFile.id →
      StoreCall.insertParent s.id opt.destFile.id ∈ (move_ g opt).calls) := by
  constructor
  · intro hF
    have hdup := dupLoop_all_diff_noforce s.id (filepathJoin opt.dest s.name) dups hdiff hex
    simp only [move_, hsrc, hold, hfind, hhard, hF, hdup]
    constructor <;> trivial
  · intro hT hne
    have hdup := dupLoop_all_diff_force s.id (filepathJoin opt.dest s.name) dups hdiff
    simp only [move_, hsrc, hold, hfind, hhard, hT, hdup, if_neg hne]
    cases hic : g.rem.insertParent s.id opt.destFile.id with
    | some e2 => simp
    | none =>
      cases hb : opt.byId with
      | true => simp
      | false => simp

/-- The C7 theorem at a concrete input: moving s into d with d/n occupied
by a different object and force unset fails with the duplicate-conflict
error naming d/n and the force flag, with an empty call trace. -/
theorem move_duplicate_gating_witness :
    (move_ gC7 optC7).val = some (MoveError.duplicateConflict "d/n" ForceKey) ∧
    (move_ gC7 optC7).calls = [] :=
  (move_duplicate_gating gC7 optC7 fC7 [some otherC7] none rfl rfl rfl rfl
    (fun x hx => by
      have hx' : x = otherC7 := by simpa using hx
      rw [hx']
      decide)
    ⟨otherC7, by simp⟩).1 rfl

/-- Claim C3 is contradicted by the code: renaming old to the free name new
(the source resolves, the new full path does not exist) never invokes the
store rename primitive; the path-not-exists result of the duplicate check
is returned and logged instead of a success after renaming. -/
theorem Rename_never_invokes_rename_bug :
    (gC3.Rename false).val = RenameOut.ret none ∧
    (gC3.Rename false).calls = [] ∧
    (gC3.Rename false).logs = [LogEntry.renameFailed "old" GoError.pathNotExists] ∧
    gC3.rem.findByPath "old" = ([some fC3], none) :=
  ⟨rfl, rfl, rfl, rfl⟩

/-- Claim C4 is contradicted by the code: copying the resolvable, copyable
source src onto the non-existent destination path newdest issues no store
call at all — the nil destination resolution is skipped before copy_ is
reached — and Copy returns nil. -/
theorem Copy_silently_skips_new_dest_bug :
    (gC4.Copy 1 false).val = none ∧
    (gC4.Copy 1 false).calls = [] ∧
    gC4.rem.findByPath "src" = ([some leafC4], none) ∧
    leafC4.copyable = true ∧
    gC4.rem.findByPath "newdest" = ([], some GoError.pathNotExists) :=
  ⟨rfl, rfl, rfl, rfl, rfl⟩

/-- Claim C8: copying a copyable leaf whose exact destination path is
occupied by a directory issues the store copy primitive with that
directory's identity as destination parent and the source's own base name
as target name. -/
theorem copy_into_existing_directory (g : Commands) (fuel : Nat) (src : File)
    (destPath : String) (dp d : File) (e : Option GoError)
    (pre post : List (Option File))
    (hleaf : src.isDir = false)
    (hcp : src.copyable = true)
    (hmk : g.remoteMkdirAll (g.pathSplitter destPath).1 = Except.ok dp)
    (hfind : g.rem.findByPath destPath = (pre ++ some d :: post, e))
    (hhard : hardErr e = none)
    (hdir : d.isDir = true) :
    StoreCall.copy src.name d.id src ∈ (Commands.copy g fuel (some src) destPath).calls := by
  rw [Commands.copy.eq_def]
  simp only [hleaf, hcp, hmk, hfind, hhard]
  exact copyLeafLoop_dir_mem g src d hdir post pre (g.pathSplitter destPath).2 dp.id

/-- The C8 theorem at a concrete input: copying leaf x onto path z occupied
by directory z issues the copy primitive with the directory's identity and
the name x. -/
theorem copy_into_existing_directory_witness :
    StoreCall.copy "x" "zid" leafC8 ∈ (Commands.copy gC8 1 (some leafC8) "z").calls :=
  copy_into_existing_directory gC8 1 leafC8 "z" rootC8 dirC8 none [] []
    rfl rfl rfl rfl rfl rfl

/-- Claim C9: a nil resolved source is logged but not skipped by Rename:
rename_ runs with the nil source, and when the duplicate check at the new
full path returns an object, the nil source's Id field is dereferenced —
the run ends in the remSrc nil dereference. -/
theorem Rename_nil_source_deref (g : Commands) (byId : Bool)
    (rest dups : List (Option File)) (d : File)
    (h2 : ¬ g.opts.sources.length < 2)
    (hres : (if byId then g.rem.findByIdMulti (g.opts.sources.getD 0 "")
      else g.rem.findByPath (g.opts.sources.getD 0 "")) = (none :: rest, none))
    (hdup : g.rem.findByPath
      (filepathJoin
        (if byId = false then g.parentPather (g.opts.sources.getD 0 "") else g.opts.path)
        (urlToPath (g.opts.sources.getD 1 "") true)) = (some d :: dups, none)) :
    (g.Rename byId).val = RenameOut.nilDeref "remSrc" ∧
    LogEntry.srcNotExist (g.opts.sources.getD 0 "") ∈ (g.Rename byId).logs := by
  have hr : rename_ g (g.opts.sources.getD 0 "") none byId =
      ⟨RenameOut.nilDeref "remSrc", [], []⟩ := by
    simp only [rename_]
    rw [hdup]
    simp [renameDupLoop]
  simp only [Commands.Rename, if_neg h2]
  rw [hres]
  simp only [renameSourcesLoop]
  rw [hr]
  simp

/-- The C9 theorem at a concrete input: renaming the nil-resolving source x
to n, with n occupied, logs the missing source and ends in the remSrc nil
dereference. -/
theorem Rename_nil_source_deref_witness :
    (gC9.Rename false).val = RenameOut.nilDeref "remSrc" ∧
    LogEntry.srcNotExist "x" ∈ (gC9.Rename false).logs :=
  Rename_nil_source_deref gC9 false [] [] dupC9 (by decide) rfl rfl
